import Mathlib

set_option maxHeartbeats 1000000

/-!
Shallow embedding of `src/services/bookService.ts` (class `BookService`):
an offline-aware entity store with a local collection, a pending-change
queue and a reachability flag.  Remote calls are modelled by explicit
outcome parameters (an `Except Unit _` result for each call an operation
makes, and a `RemoteCall → Bool` oracle for the replay loop), and every
operation additionally returns the list of remote calls it issued.
-/

deriving instance DecidableEq for Except

/-- JavaScript number restricted to the values that arise as ids in the
service: integers, plus `-Infinity` (the value of `Math.max()` applied to
an empty spread, as happens in `addBook` when the collection is empty). -/
inductive JSNum where
  | negInf : JSNum
  | num : Int → JSNum
  deriving DecidableEq, Inhabited, Repr

/-- Binary `Math.max` on the modelled numbers: `-Infinity` is absorbed. -/
def JSNum.jmax : JSNum → JSNum → JSNum
  | .negInf, b => b
  | a, .negInf => a
  | .num a, .num b => .num (Max.max a b)

/-- Adding the literal `1` to a modelled number; `-Infinity + 1 = -Infinity`. -/
def JSNum.add1 : JSNum → JSNum
  | .negInf => .negInf
  | .num a => .num (a + 1)

/-- JavaScript truthiness of a number: `0` is falsy, every other modelled
value (including `-Infinity`) is truthy. -/
def JSNum.truthy : JSNum → Bool
  | .negInf => true
  | .num n => n != 0

/-- Order on modelled numbers, with `-Infinity` below everything. -/
def JSNum.le : JSNum → JSNum → Prop
  | .negInf, _ => True
  | .num _, .negInf => False
  | .num a, .num b => a ≤ b

/-- `Math.max(...l)`: left fold of binary max over the spread arguments,
yielding `-Infinity` on an empty argument list (as JavaScript does). -/
def mathMax (l : List JSNum) : JSNum := l.foldl JSNum.jmax JSNum.negInf

/-- Nested author record of a `Book` (see the `Book` interface). -/
structure Author where
  id : Int
  name : String
  birthDate : String
  country : String
  deriving DecidableEq, Inhabited, Repr

/-- Nested publisher record of a `Book`. -/
structure Publisher where
  id : Int
  name : String
  establishmentYear : Int
  address : String
  deriving DecidableEq, Inhabited, Repr

/-- Nested category record of a `Book`. -/
structure Category where
  id : Int
  name : String
  description : String
  deriving DecidableEq, Inhabited, Repr

/-- The `Book` interface of `bookService.ts`.  The `id` is a `JSNum`
because `addBook` computes it with `Math.max`, which can produce
`-Infinity`. -/
structure Book where
  id : JSNum
  name : String
  publicationYear : Int
  stock : Int
  author : Author
  publisher : Publisher
  categories : List Category
  deriving DecidableEq, Inhabited, Repr

/-- `Omit<Book, 'id'>`: the argument type of `addBook`. -/
structure BookInput where
  name : String
  publicationYear : Int
  stock : Int
  author : Author
  publisher : Publisher
  categories : List Category
  deriving DecidableEq, Inhabited, Repr

/-- Attaching an id to an id-less book, as the object spread
`{ ...book, id: ... }` in `addBook` does. -/
def BookInput.withId (b : BookInput) (id : JSNum) : Book :=
  { id := id, name := b.name, publicationYear := b.publicationYear,
    stock := b.stock, author := b.author, publisher := b.publisher,
    categories := b.categories }

/-- `Partial<Book>`: every field optional, as passed to `updateBook`. -/
structure BookPatch where
  id : Option JSNum := none
  name : Option String := none
  publicationYear : Option Int := none
  stock : Option Int := none
  author : Option Author := none
  publisher : Option Publisher := none
  categories : Option (List Category) := none
  deriving DecidableEq, Inhabited, Repr

/-- The object spread `{ ...this.books[index], ...book, id }` of
`updateBook`: patch fields override the existing record field by field,
and the trailing `id` property wins over any `id` in the patch. -/
def spreadPatch (b : Book) (p : BookPatch) (id : JSNum) : Book :=
  { id := id,
    name := p.name.getD b.name,
    publicationYear := p.publicationYear.getD b.publicationYear,
    stock := p.stock.getD b.stock,
    author := p.author.getD b.author,
    publisher := p.publisher.getD b.publisher,
    categories := p.categories.getD b.categories }

/-- The `type` discriminator of a `PendingChange`. -/
inductive ChangeType where
  | add | update | delete
  deriving DecidableEq, Inhabited, Repr

/-- The `PendingChange` interface.  In this service `data` is always a
full book (for add and update entries) or the empty object (for delete
entries), so the `Partial<Book>` payload is modelled as `Option Book`
with `none` for the empty object. -/
structure PendingChange where
  type : ChangeType
  data : Option Book
  id : Option JSNum
  timestamp : Int
  deriving DecidableEq, Inhabited, Repr

/-- One remote (axios) call the service can issue, with its payload. -/
inductive RemoteCall where
  | getHealth
  | getBooksList
  | getBook (id : JSNum)
  | postBook (data : Option Book)
  | putBook (id : JSNum) (data : Option Book)
  | deleteBook (id : JSNum)
  deriving DecidableEq, Inhabited, Repr

/-- The mutable fields of the `BookService` class instance. -/
structure ServiceState where
  books : List Book
  pendingChanges : List PendingChange
  isOnline : Bool
  deriving DecidableEq, Inhabited, Repr

/-- Field initializers of `BookService`: the collection is seeded from
`books.json`, the queue starts empty, `isOnline` starts `true`. -/
def initState (booksData : List Book) : ServiceState :=
  { books := booksData, pendingChanges := [], isOnline := true }

/-- `Array.prototype.findIndex` (found index, or `none` for `-1`),
accumulator form. -/
def findIndexAux (p : Book → Bool) : List Book → Nat → Option Nat
  | [], _ => none
  | b :: rest, i => if p b then some i else findIndexAux p rest (i + 1)

/-- `Array.prototype.findIndex` on the book collection. -/
def findIndex (p : Book → Bool) (l : List Book) : Option Nat :=
  findIndexAux p l 0

/-- Lookup `l[i]`, used only at indexes produced by `findIndex`. -/
def getAt (l : List Book) (i : Nat) : Book := (l[i]?).getD default

namespace BookService

/-- The remote call a replay step issues for one queued change, or `none`
when it issues no call: the `switch` in `syncPendingChanges`, where the
update and delete arms are guarded by the truthiness test `if (change.id)`. -/
def replayCall (c : PendingChange) : Option RemoteCall :=
  match c.type with
  | .add => some (.postBook c.data)
  | .update =>
    match c.id with
    | some i => if i.truthy then some (.putBook i c.data) else none
    | none => none
  | .delete =>
    match c.id with
    | some i => if i.truthy then some (.deleteBook i) else none
    | none => none

/-- Whether the replay step for `c` completes without a failing remote
call: either its call succeeds, or no call is issued at all. -/
def stepOk (ok : RemoteCall → Bool) (c : PendingChange) : Bool :=
  match replayCall c with
  | some call => ok call
  | none => true

/-- The reassignment
`this.pendingChanges = this.pendingChanges.filter(pc => pc.timestamp !== change.timestamp)`
performed after a replay step that did not raise. -/
def removeTs (t : Int) (s : ServiceState) : ServiceState :=
  { s with pendingChanges := s.pendingChanges.filter (fun pc => pc.timestamp != t) }

/-- The `for...of` loop of `syncPendingChanges` over the snapshot of the
queue taken when the loop started (reassigning `this.pendingChanges`
inside the loop does not affect the iteration).  A step that completes
without a failing call removes every queued entry sharing the processed
entry's timestamp; a failing call is caught (logged) and the loop
continues with the next snapshot entry. -/
def syncLoop (ok : RemoteCall → Bool) :
    List PendingChange → ServiceState → ServiceState × List RemoteCall
  | [], s => (s, [])
  | c :: rest, s =>
    match replayCall c with
    | some call =>
      if ok call then
        let r := syncLoop ok rest (removeTs c.timestamp s)
        (r.1, call :: r.2)
      else
        let r := syncLoop ok rest s
        (r.1, call :: r.2)
    | none =>
      syncLoop ok rest (removeTs c.timestamp s)

/-- `syncPendingChanges`: early return when offline or when the queue is
empty, otherwise run the replay loop over the current queue. -/
def syncPendingChanges (ok : RemoteCall → Bool) (s : ServiceState) :
    ServiceState × List RemoteCall :=
  if !s.isOnline || s.pendingChanges.length == 0 then (s, [])
  else syncLoop ok s.pendingChanges s

/-- `checkApiStatus`: probe `/health`; on success set the flag online and
run `syncPendingChanges`, on failure set it offline. -/
def checkApiStatus (ok : RemoteCall → Bool) (s : ServiceState) :
    ServiceState × List RemoteCall :=
  if ok RemoteCall.getHealth then
    let res := syncPendingChanges ok { s with isOnline := true }
    (res.1, RemoteCall.getHealth :: res.2)
  else
    ({ s with isOnline := false }, [RemoteCall.getHealth])

/-- `getAllBooks`: remote fetch when online (falling back to the local
collection and flipping offline on failure), local collection when
offline. -/
def getAllBooks (r : Except Unit (List Book)) (s : ServiceState) :
    Except Unit (List Book) × ServiceState × List RemoteCall :=
  if s.isOnline then
    match r with
    | .ok bs => (.ok bs, s, [.getBooksList])
    | .error _ => (.ok s.books, { s with isOnline := false }, [.getBooksList])
  else
    (.ok s.books, s, [])

/-- `getBookById`: same branching as `getAllBooks`, scoped to one id; the
local fallback is `find`. -/
def getBookById (id : JSNum) (r : Except Unit Book) (s : ServiceState) :
    Except Unit (Option Book) × ServiceState × List RemoteCall :=
  if s.isOnline then
    match r with
    | .ok b => (.ok (some b), s, [.getBook id])
    | .error _ =>
      (.ok (s.books.find? (fun b => b.id == id)),
       { s with isOnline := false }, [.getBook id])
  else
    (.ok (s.books.find? (fun b => b.id == id)), s, [])

/-- The new entity `addBook` constructs:
`{ ...book, id: Math.max(...this.books.map(b => b.id)) + 1 }`. -/
def mkNewBook (s : ServiceState) (book : BookInput) : Book :=
  book.withId (JSNum.add1 (mathMax (s.books.map Book.id)))

/-- `addBook`.  Note the early `return response.data` on the online path
when the remote create succeeds: on that path neither the push onto the
queue nor the push onto the local collection is reached. -/
def addBook (book : BookInput) (r : Except Unit Book) (now : Int)
    (s : ServiceState) :
    Except Unit Book × ServiceState × List RemoteCall :=
  let newBook := mkNewBook s book
  if s.isOnline then
    match r with
    | .ok resp => (.ok resp, s, [.postBook (some newBook)])
    | .error _ =>
      let s1 := { s with
        isOnline := false
        pendingChanges := s.pendingChanges ++ [(⟨.add, some newBook, none, now⟩ : PendingChange)] }
      (.ok newBook, { s1 with books := s1.books ++ [newBook] },
       [.postBook (some newBook)])
  else
    let s1 := { s with
      pendingChanges := s.pendingChanges ++ [(⟨.add, some newBook, none, now⟩ : PendingChange)] }
    (.ok newBook, { s1 with books := s1.books ++ [newBook] }, [])

/-- `updateBook`: local lookup first (returning `undefined`, modelled as
`none`, on a miss); on the online path a successful remote put stores the
remote response at the found index, a failure enqueues the merged record
and falls through to the unconditional local write. -/
def updateBook (id : JSNum) (patch : BookPatch) (r : Except Unit Book)
    (now : Int) (s : ServiceState) :
    Except Unit (Option Book) × ServiceState × List RemoteCall :=
  match findIndex (fun b => b.id == id) s.books with
  | none => (.ok none, s, [])
  | some index =>
    let updatedBook := spreadPatch (getAt s.books index) patch id
    if s.isOnline then
      match r with
      | .ok resp =>
        (.ok (some resp), { s with books := s.books.set index resp },
         [.putBook id (some updatedBook)])
      | .error _ =>
        let s1 := { s with
          isOnline := false
          pendingChanges := s.pendingChanges ++
            [(⟨.update, some updatedBook, some id, now⟩ : PendingChange)] }
        (.ok (some updatedBook),
         { s1 with books := s1.books.set index updatedBook },
         [.putBook id (some updatedBook)])
    else
      let s1 := { s with
        pendingChanges := s.pendingChanges ++
          [(⟨.update, some updatedBook, some id, now⟩ : PendingChange)] }
      (.ok (some updatedBook),
       { s1 with books := s1.books.set index updatedBook }, [])

/-- `deleteBook`: local lookup first (returning `false` on a miss); the
remote delete is attempted only when online, its failure enqueues a
delete entry; the local splice happens on every found path and the result
is `true`. -/
def deleteBook (id : JSNum) (r : Except Unit Unit) (now : Int)
    (s : ServiceState) :
    Except Unit Bool × ServiceState × List RemoteCall :=
  match findIndex (fun b => b.id == id) s.books with
  | none => (.ok false, s, [])
  | some index =>
    if s.isOnline then
      match r with
      | .ok _ =>
        (.ok true, { s with books := s.books.eraseIdx index },
         [.deleteBook id])
      | .error _ =>
        let s1 := { s with
          isOnline := false
          pendingChanges := s.pendingChanges ++ [(⟨.delete, none, some id, now⟩ : PendingChange)] }
        (.ok true, { s1 with books := s1.books.eraseIdx index },
         [.deleteBook id])
    else
      let s1 := { s with
        pendingChanges := s.pendingChanges ++ [(⟨.delete, none, some id, now⟩ : PendingChange)] }
      (.ok true, { s1 with books := s1.books.eraseIdx index }, [])

/-- One invocation of a public operation of the service, carrying the
outcome of each remote call it may make. -/
inductive Op where
  | probe (ok : RemoteCall → Bool)
  | list (r : Except Unit (List Book))
  | getOne (id : JSNum) (r : Except Unit Book)
  | addOp (book : BookInput) (r : Except Unit Book) (now : Int)
  | updateOp (id : JSNum) (patch : BookPatch) (r : Except Unit Book) (now : Int)
  | deleteOp (id : JSNum) (r : Except Unit Unit) (now : Int)

/-- State transition and issued calls of one operation invocation. -/
def applyOp (s : ServiceState) : Op → ServiceState × List RemoteCall
  | .probe ok => checkApiStatus ok s
  | .list r => ((getAllBooks r s).2.1, (getAllBooks r s).2.2)
  | .getOne id r => ((getBookById id r s).2.1, (getBookById id r s).2.2)
  | .addOp book r now => ((addBook book r now s).2.1, (addBook book r now s).2.2)
  | .updateOp id patch r now =>
    ((updateBook id patch r now s).2.1, (updateBook id patch r now s).2.2)
  | .deleteOp id r now =>
    ((deleteBook id r now s).2.1, (deleteBook id r now s).2.2)

/-- Whether the operation's own remote call outcome is a failure. -/
def opFailed : Op → Prop
  | .probe ok => ok RemoteCall.getHealth = false
  | .list r => r = .error ()
  | .getOne _ r => r = .error ()
  | .addOp _ r _ => r = .error ()
  | .updateOp _ _ r _ => r = .error ()
  | .deleteOp _ r _ => r = .error ()

/-- Timestamps of the snapshot entries whose replay step completes
without a failing remote call. -/
def okTs (ok : RemoteCall → Bool) (l : List PendingChange) : List Int :=
  (l.filter (stepOk ok)).map PendingChange.timestamp

end BookService

/-! Concrete sample inputs used to evaluate the operations at specific
states. -/

/-- A sample author. -/
def authX : Author := ⟨1, "a", "b", "c"⟩

/-- A sample publisher. -/
def pubX : Publisher := ⟨1, "p", 1900, "q"⟩

/-- A sample book with id 1. -/
def bk1 : Book := ⟨JSNum.num 1, "A", 2000, 3, authX, pubX, []⟩

/-- A sample id-less book argument for `addBook`. -/
def bIn : BookInput := ⟨"B", 2001, 4, authX, pubX, []⟩

/-- A sample book as the remote create response, carrying a
remote-assigned id different from the locally assigned one. -/
def rBook : Book := ⟨JSNum.num 9, "R", 2001, 4, authX, pubX, []⟩

/-- Online state holding one book and an empty queue. -/
def sOn1 : ServiceState := ⟨[bk1], [], true⟩

/-- Offline state holding one book and an empty queue. -/
def sOff1 : ServiceState := ⟨[bk1], [], false⟩

/-- Offline state with an empty collection. -/
def sEmptyOff : ServiceState := ⟨[], [], false⟩

/-- A queued delete entry for id `i` with timestamp `t`. -/
def delEntry (i t : Int) : PendingChange :=
  ⟨.delete, none, some (JSNum.num i), t⟩

/-- First entry of the three-entry replay queue. -/
def eR1 : PendingChange := delEntry 1 1

/-- Second entry of the three-entry replay queue. -/
def eR2 : PendingChange := delEntry 2 2

/-- Third entry of the three-entry replay queue. -/
def eR3 : PendingChange := delEntry 3 3

/-- State whose queue holds the three replay entries, before a probe. -/
def sQueue3 : ServiceState := ⟨[], [eR1, eR2, eR3], false⟩

/-- Oracle under which exactly the remote delete of id 2 fails. -/
def okFail2 : RemoteCall → Bool :=
  fun c => c != RemoteCall.deleteBook (JSNum.num 2)

/-- A queued delete entry whose id field is 0 (falsy). -/
def zeroDel : PendingChange := ⟨.delete, none, some (JSNum.num 0), 5⟩

/-- Online state whose queue holds only the falsy-id delete entry. -/
def sZeroDel : ServiceState := ⟨[], [zeroDel], true⟩

/-- Oracle under which every remote call fails. -/
def okNone : RemoteCall → Bool := fun _ => false

/-- Oracle under which every remote call succeeds. -/
def okAll : RemoteCall → Bool := fun _ => true

/-- A queued add entry with timestamp 7. -/
def addEntry7 : PendingChange := ⟨.add, none, none, 7⟩

/-- Online state whose queue holds only the add entry. -/
def sAdd7 : ServiceState := ⟨[], [addEntry7], true⟩

/-- A queued update entry with no id field. -/
def updNoId : PendingChange := ⟨.update, none, none, 4⟩

/-- Online state whose queue holds only the id-less update entry. -/
def sUpdNoId : ServiceState := ⟨[], [updNoId], true⟩

/-! Lemmas about the replay loop and the synchronization pass. -/

namespace BookService

theorem syncLoop_books (ok : RemoteCall → Bool) :
    ∀ (l : List PendingChange) (s : ServiceState),
      (syncLoop ok l s).1.books = s.books := by
  intro l
  induction l with
  | nil => intro s; rfl
  | cons c rest ih =>
    intro s
    cases h : replayCall c with
    | some call =>
      by_cases hok : ok call <;> simp [syncLoop, h, hok, ih, removeTs]
    | none => simp [syncLoop, h, ih, removeTs]

theorem syncLoop_isOnline (ok : RemoteCall → Bool) :
    ∀ (l : List PendingChange) (s : ServiceState),
      (syncLoop ok l s).1.isOnline = s.isOnline := by
  intro l
  induction l with
  | nil => intro s; rfl
  | cons c rest ih =>
    intro s
    cases h : replayCall c with
    | some call =>
      by_cases hok : ok call <;> simp [syncLoop, h, hok, ih, removeTs]
    | none => simp [syncLoop, h, ih, removeTs]

theorem syncLoop_trace (ok : RemoteCall → Bool) :
    ∀ (l : List PendingChange) (s : ServiceState),
      (syncLoop ok l s).2 = l.filterMap replayCall := by
  intro l
  induction l with
  | nil => intro s; rfl
  | cons c rest ih =>
    intro s
    cases h : replayCall c with
    | some call =>
      by_cases hok : ok call <;> simp [syncLoop, h, hok, ih]
    | none => simp [syncLoop, h, ih]

theorem okTs_cons (ok : RemoteCall → Bool) (c : PendingChange)
    (rest : List PendingChange) :
    okTs ok (c :: rest) =
      if stepOk ok c then c.timestamp :: okTs ok rest else okTs ok rest := by
  simp only [okTs, List.filter_cons]
  split <;> simp

theorem syncLoop_pending (ok : RemoteCall → Bool) :
    ∀ (l : List PendingChange) (s : ServiceState),
      (syncLoop ok l s).1.pendingChanges
        = s.pendingChanges.filter
            (fun pc => !((okTs ok l).contains pc.timestamp)) := by
  intro l
  induction l with
  | nil =>
    intro s
    simp [syncLoop, okTs]
  | cons c rest ih =>
    intro s
    cases h : replayCall c with
    | some call =>
      by_cases hok : ok call
      · have hstep : stepOk ok c = true := by simp [stepOk, h, hok]
        simp only [syncLoop, h, hok, if_true, ih, removeTs, okTs_cons, hstep,
          List.filter_filter]
        apply List.filter_congr
        intro x _
        simp only [List.contains_cons, Bool.not_or, bne]
        exact Bool.and_comm _ _
      · have hstep : stepOk ok c = false := by simp [stepOk, h, hok]
        simp only [syncLoop, h, hok, if_false, ih, okTs_cons, hstep,
          Bool.false_eq_true]
    | none =>
      have hstep : stepOk ok c = true := by simp [stepOk, h]
      simp only [syncLoop, h, ih, removeTs, okTs_cons, hstep, if_true,
        List.filter_filter]
      apply List.filter_congr
      intro x _
      simp only [List.contains_cons, Bool.not_or, bne]
      exact Bool.and_comm _ _

theorem sync_books (ok : RemoteCall → Bool) (s : ServiceState) :
    (syncPendingChanges ok s).1.books = s.books := by
  unfold syncPendingChanges
  split
  · rfl
  · exact syncLoop_books ok s.pendingChanges s

theorem sync_isOnline (ok : RemoteCall → Bool) (s : ServiceState) :
    (syncPendingChanges ok s).1.isOnline = s.isOnline := by
  unfold syncPendingChanges
  split
  · rfl
  · exact syncLoop_isOnline ok s.pendingChanges s

theorem sync_trace (ok : RemoteCall → Bool) (s : ServiceState)
    (hON : s.isOnline = true) :
    (syncPendingChanges ok s).2 = s.pendingChanges.filterMap replayCall := by
  by_cases hq : s.pendingChanges = []
  · simp [syncPendingChanges, hq, hON]
  · have hlen : (s.pendingChanges.length == 0) = false := by
      simp [List.length_eq_zero, hq]
    simp [syncPendingChanges, hON, hlen, syncLoop_trace]

theorem sync_pending (ok : RemoteCall → Bool) (s : ServiceState)
    (hON : s.isOnline = true) :
    (syncPendingChanges ok s).1.pendingChanges
      = s.pendingChanges.filter
          (fun pc => !((okTs ok s.pendingChanges).contains pc.timestamp)) := by
  by_cases hq : s.pendingChanges = []
  · simp [syncPendingChanges, hq, hON]
  · have hlen : (s.pendingChanges.length == 0) = false := by
      simp [List.length_eq_zero, hq]
    simp [syncPendingChanges, hON, hlen, syncLoop_pending]

end BookService

namespace BookService

theorem contains_okTs_iff (ok : RemoteCall → Bool) (l : List PendingChange)
    (hnd : (l.map PendingChange.timestamp).Nodup) (pc : PendingChange)
    (hm : pc ∈ l) :
    (okTs ok l).contains pc.timestamp = stepOk ok pc := by
  by_cases hs : stepOk ok pc = true
  · rw [hs]
    have hmem : pc.timestamp ∈ okTs ok l :=
      List.mem_map_of_mem PendingChange.timestamp
        (List.mem_filter.mpr ⟨hm, hs⟩)
    simpa using hmem
  · rw [Bool.not_eq_true] at hs
    rw [hs]
    rw [Bool.eq_false_iff]
    intro hcon
    have hmem : pc.timestamp ∈ okTs ok l := by simpa using hcon
    obtain ⟨c, hc, hts⟩ := List.mem_map.mp hmem
    obtain ⟨hcl, hcok⟩ := List.mem_filter.mp hc
    have : c = pc := List.inj_on_of_nodup_map hnd hcl hm hts
    rw [this] at hcok
    rw [hcok] at hs
    exact Bool.true_eq_false.mp hs

theorem sync_pending_nodup (ok : RemoteCall → Bool) (s : ServiceState)
    (hON : s.isOnline = true)
    (hnd : (s.pendingChanges.map PendingChange.timestamp).Nodup) :
    (syncPendingChanges ok s).1.pendingChanges
      = s.pendingChanges.filter (fun c => !(stepOk ok c)) := by
  rw [sync_pending ok s hON]
  apply List.filter_congr
  intro x hx
  rw [contains_okTs_iff ok s.pendingChanges hnd x hx]

end BookService


/-! Lemmas about the findIndex model and the Math.max fold. -/

theorem findIndexAux_none_iff (p : Book → Bool) :
    ∀ (l : List Book) (n : Nat),
      findIndexAux p l n = none ↔ ∀ b ∈ l, p b = false := by
  intro l
  induction l with
  | nil => intro n; simp [findIndexAux]
  | cons b rest ih =>
    intro n
    by_cases hb : p b = true
    · constructor
      · intro h
        simp [findIndexAux, hb] at h
      · intro h
        have hfalse := h b (List.mem_cons_self b rest)
        rw [hb] at hfalse
        exact absurd hfalse (by simp)
    · rw [Bool.not_eq_true] at hb
      simp [findIndexAux, hb, ih]

theorem findIndex_none_iff (p : Book → Bool) (l : List Book) :
    findIndex p l = none ↔ ∀ b ∈ l, p b = false :=
  findIndexAux_none_iff p l 0

theorem findIndexAux_some_elem (p : Book → Bool) :
    ∀ (l : List Book) (n i : Nat), findIndexAux p l n = some i →
      n ≤ i ∧ ∃ b, l[i - n]? = some b ∧ p b = true := by
  intro l
  induction l with
  | nil => intro n i h; simp [findIndexAux] at h
  | cons b rest ih =>
    intro n i h
    by_cases hb : p b = true
    · simp [findIndexAux, hb] at h
      subst h
      exact ⟨Nat.le_refl n, b, by simp, hb⟩
    · rw [Bool.not_eq_true] at hb
      simp only [findIndexAux, hb, Bool.false_eq_true, if_false] at h
      obtain ⟨hle, b', hb', hp⟩ := ih (n + 1) i h
      refine ⟨by omega, b', ?_, hp⟩
      have hsub : i - n = (i - (n + 1)) + 1 := by omega
      rw [hsub, List.getElem?_cons_succ]
      exact hb'

theorem findIndex_some_elem (p : Book → Bool) (l : List Book) (i : Nat)
    (h : findIndex p l = some i) : ∃ b, l[i]? = some b ∧ p b = true := by
  obtain ⟨-, b, hb, hp⟩ := findIndexAux_some_elem p l 0 i h
  exact ⟨b, by simpa using hb, hp⟩

theorem JSNum.le_rfl (a : JSNum) : JSNum.le a a := by
  cases a <;> simp [JSNum.le]

theorem JSNum.le_trans' (a b c : JSNum) :
    JSNum.le a b → JSNum.le b c → JSNum.le a c := by
  cases a <;> cases b <;> cases c <;> simp [JSNum.le] <;> try omega

theorem JSNum.le_jmax_left (a b : JSNum) : JSNum.le a (a.jmax b) := by
  cases a with
  | negInf => cases b <;> simp [JSNum.le, JSNum.jmax]
  | num x =>
    cases b with
    | negInf => simp [JSNum.le, JSNum.jmax]
    | num y => simp [JSNum.le, JSNum.jmax]

theorem JSNum.le_jmax_right (a b : JSNum) : JSNum.le b (a.jmax b) := by
  cases a with
  | negInf => cases b <;> simp [JSNum.le, JSNum.jmax]
  | num x =>
    cases b with
    | negInf => simp [JSNum.le, JSNum.jmax]
    | num y => simp [JSNum.le, JSNum.jmax]

theorem JSNum.jmax_eq_or (a b : JSNum) : a.jmax b = a ∨ a.jmax b = b := by
  cases a with
  | negInf => right; cases b <;> rfl
  | num x =>
    cases b with
    | negInf => left; rfl
    | num y =>
      rcases le_total x y with h | h
      · right; simp [JSNum.jmax, max_eq_right h]
      · left; simp [JSNum.jmax, max_eq_left h]

theorem foldl_jmax_ge_init (l : List JSNum) :
    ∀ a, JSNum.le a (l.foldl JSNum.jmax a) := by
  induction l with
  | nil => intro a; exact JSNum.le_rfl a
  | cons x rest ih =>
    intro a
    exact JSNum.le_trans' _ _ _ (JSNum.le_jmax_left a x) (ih (a.jmax x))

theorem foldl_jmax_ub (l : List JSNum) :
    ∀ a x, x ∈ l → JSNum.le x (l.foldl JSNum.jmax a) := by
  induction l with
  | nil => intro a x hx; exact absurd hx (List.not_mem_nil x)
  | cons y rest ih =>
    intro a x hx
    rcases List.mem_cons.mp hx with h | h
    · subst h
      exact JSNum.le_trans' _ _ _ (JSNum.le_jmax_right a x)
        (foldl_jmax_ge_init rest (a.jmax x))
    · exact ih (a.jmax y) x h

theorem foldl_jmax_mem (l : List JSNum) :
    ∀ a, l.foldl JSNum.jmax a = a ∨ l.foldl JSNum.jmax a ∈ l := by
  induction l with
  | nil => intro a; left; rfl
  | cons x rest ih =>
    intro a
    rcases ih (a.jmax x) with h | h
    · rcases JSNum.jmax_eq_or a x with h2 | h2
      · left; rw [List.foldl_cons, h, h2]
      · right; rw [List.foldl_cons, h, h2]; exact List.mem_cons_self x rest
    · right; exact List.mem_cons_of_mem x h

theorem mathMax_spec (l : List JSNum) (m : Int) (h : mathMax l = JSNum.num m) :
    JSNum.num m ∈ l ∧ ∀ x ∈ l, JSNum.le x (JSNum.num m) := by
  constructor
  · rcases foldl_jmax_mem l JSNum.negInf with h2 | h2
    · rw [mathMax] at h
      rw [h] at h2
      exact absurd h2 (by simp)
    · rw [mathMax] at h
      rw [← h]
      exact h2
  · intro x hx
    have hub := foldl_jmax_ub l JSNum.negInf x hx
    rw [mathMax] at h
    rw [h] at hub
    exact hub

/-! Claim theorems. -/

namespace BookService

/-- C1 counterexample: at an online state where the remote create
succeeds, `addBook` returns early after the remote call and the local
collection is left unchanged — the newly constructed entity is not
appended, refuting the claim that the append happens on every path. -/
theorem addBook_online_success_no_append :
    (addBook bIn (Except.ok rBook) 0 sOn1).2.1.books
      ≠ sOn1.books ++ [mkNewBook sOn1 bIn] := by decide

/-- C1 (amended): `addBook` appends the newly constructed entity to the
local collection on the offline path and on the online path where the
remote create fails; on the online path where the remote create succeeds
it returns early and the local collection is unchanged. -/
theorem addBook_books_by_path (book : BookInput) (r : Except Unit Book)
    (now : Int) (s : ServiceState) :
    (s.isOnline = false →
      (addBook book r now s).2.1.books = s.books ++ [mkNewBook s book])
    ∧ (s.isOnline = true → r = Except.error () →
      (addBook book r now s).2.1.books = s.books ++ [mkNewBook s book])
    ∧ (∀ b, s.isOnline = true → r = Except.ok b →
      (addBook book r now s).2.1.books = s.books) := by
  refine ⟨?_, ?_, ?_⟩
  · intro h
    simp [addBook, h]
  · intro h hr
    subst hr
    simp [addBook, h]
  · intro b h hr
    subst hr
    simp [addBook, h]

/-- C1 witness: the offline branch of the amended theorem evaluated at a
concrete offline state. -/
theorem addBook_books_by_path_witness :
    (addBook bIn (Except.error ()) 0 sOff1).2.1.books
      = sOff1.books ++ [mkNewBook sOff1 bIn] :=
  (addBook_books_by_path bIn (Except.error ()) 0 sOff1).1 rfl

/-- C4 counterexample: at an online state where the remote create
succeeds, the caller receives the remote response, which differs from the
locally constructed entity — refuting the claim that the remote-assigned
representation is never what the caller receives. -/
theorem addBook_returns_remote_cx :
    (addBook bIn (Except.ok rBook) 0 sOn1).1 = Except.ok rBook
    ∧ rBook ≠ mkNewBook sOn1 bIn := by decide

/-- C4 (amended): `addBook` returns the locally constructed entity on the
offline path and on the online path where the remote create fails; on the
online path where the remote create succeeds it returns the remote
response instead. -/
theorem addBook_result_by_path (book : BookInput) (r : Except Unit Book)
    (now : Int) (s : ServiceState) :
    (s.isOnline = false →
      (addBook book r now s).1 = Except.ok (mkNewBook s book))
    ∧ (s.isOnline = true → r = Except.error () →
      (addBook book r now s).1 = Except.ok (mkNewBook s book))
    ∧ (∀ b, s.isOnline = true → r = Except.ok b →
      (addBook book r now s).1 = Except.ok b) := by
  refine ⟨?_, ?_, ?_⟩
  · intro h
    simp [addBook, h]
  · intro h hr
    subst hr
    simp [addBook, h]
  · intro b h hr
    subst hr
    simp [addBook, h]

/-- C4 witness: the offline branch of the amended theorem evaluated at a
concrete offline state. -/
theorem addBook_result_by_path_witness :
    (addBook bIn (Except.error ()) 0 sOff1).1
      = Except.ok (mkNewBook sOff1 bIn) :=
  (addBook_result_by_path bIn (Except.error ()) 0 sOff1).1 rfl

/-- C5 counterexample: on an empty local collection `Math.max()` is
`-Infinity`, so the entity `addBook` constructs carries id `-Infinity`,
not id 1 as claimed. -/
theorem addBook_empty_id_cx :
    sEmptyOff.books = []
    ∧ (addBook bIn (Except.error ()) 0 sEmptyOff).1
        = Except.ok (bIn.withId JSNum.negInf)
    ∧ JSNum.negInf ≠ JSNum.num 1 := by decide

/-- C5 (amended): the entity `addBook` constructs carries id `m + 1`
where `m` is the maximum id present in the local collection (`mathMax` is
proved to be a member and an upper bound of the ids); on an empty
collection the id is `-Infinity` (the value of `Math.max()` plus 1), not
1. -/
theorem addBook_id_assignment (s : ServiceState) (book : BookInput) :
    (s.books = [] → (mkNewBook s book).id = JSNum.negInf)
    ∧ (∀ m : Int, mathMax (s.books.map Book.id) = JSNum.num m →
        (mkNewBook s book).id = JSNum.num (m + 1)
        ∧ JSNum.num m ∈ s.books.map Book.id
        ∧ ∀ x ∈ s.books.map Book.id, JSNum.le x (JSNum.num m)) := by
  constructor
  · intro h
    simp [mkNewBook, BookInput.withId, h, mathMax, JSNum.add1]
  · intro m hm
    obtain ⟨hmem, hub⟩ := mathMax_spec _ m hm
    refine ⟨?_, hmem, hub⟩
    simp [mkNewBook, BookInput.withId, hm, JSNum.add1]

/-- C5 witness: at a one-book collection whose maximum id is 1, the
constructed entity carries id 2. -/
theorem addBook_id_assignment_witness :
    (mkNewBook sOn1 bIn).id = JSNum.num (1 + 1) :=
  ((addBook_id_assignment sOn1 bIn).2 1 (by decide)).1

end BookService

namespace BookService

/-- C2 counterexample: a successful probe over a three-entry queue whose
second replay call fails leaves only the second entry queued — the first
and third were replayed and removed — and a remote call was issued for
the third entry, refuting both "entries #2 and #3 remain" and "no remote
call issued for entry #3". -/
theorem replay_continues_after_failure_cx :
    sQueue3.pendingChanges = [eR1, eR2, eR3]
    ∧ (checkApiStatus okFail2 sQueue3).1.pendingChanges = [eR2]
    ∧ (checkApiStatus okFail2 sQueue3).1.pendingChanges ≠ [eR2, eR3]
    ∧ RemoteCall.deleteBook (JSNum.num 3) ∈ (checkApiStatus okFail2 sQueue3).2 := by
  decide

/-- C2 (amended): after a successful probe, replay processes the snapshot
of the queue strictly in FIFO enqueue order and issues the corresponding
remote call for every entry that has one — it does not stop at a failing
entry; when the queued timestamps are pairwise distinct, exactly the
entries whose step failed remain queued afterwards, in their original
relative order. -/
theorem replay_fifo_characterization (ok : RemoteCall → Bool)
    (s : ServiceState) (hp : ok RemoteCall.getHealth = true)
    (hnd : (s.pendingChanges.map PendingChange.timestamp).Nodup) :
    (checkApiStatus ok s).1.pendingChanges
      = s.pendingChanges.filter (fun c => !(stepOk ok c))
    ∧ (checkApiStatus ok s).2
      = RemoteCall.getHealth :: s.pendingChanges.filterMap replayCall := by
  have hON : ({ s with isOnline := true } : ServiceState).isOnline = true := rfl
  constructor
  · simp only [checkApiStatus, hp, if_true]
    exact sync_pending_nodup ok _ hON hnd
  · simp only [checkApiStatus, hp, if_true, List.cons.injEq, true_and]
    exact sync_trace ok _ hON

/-- C2 witness: the amended theorem applied to the three-entry queue with
an oracle under which every call succeeds. -/
theorem replay_fifo_characterization_witness :
    (checkApiStatus okAll sQueue3).1.pendingChanges
      = sQueue3.pendingChanges.filter (fun c => !(stepOk okAll c)) :=
  (replay_fifo_characterization okAll sQueue3 (by decide) (by decide)).1

/-- C3 counterexample: an online state whose queue holds one delete entry
with id 0, under an oracle where every remote call fails.  The pass
issues no remote call at all, yet the entry is removed from the queue —
refuting "removed only after a successful remote replay of that exact
entry". -/
theorem entry_removed_without_replay_cx :
    sZeroDel.pendingChanges = [zeroDel]
    ∧ (syncPendingChanges okNone sZeroDel).1.pendingChanges = []
    ∧ (syncPendingChanges okNone sZeroDel).2 = [] := by decide

/-- C3 (amended): a pending entry is removed by a synchronization pass
only if some queued entry with the same timestamp had a replay step that
completed without a failing remote call — a successful call, or no call
at all for an update/delete entry with a falsy id; an entry whose own
call failed is removed only through such a same-timestamp entry. -/
theorem removed_only_if_step_completed (ok : RemoteCall → Bool)
    (s : ServiceState) (e : PendingChange) (h1 : e ∈ s.pendingChanges)
    (h2 : e ∉ (syncPendingChanges ok s).1.pendingChanges) :
    ∃ c ∈ s.pendingChanges, c.timestamp = e.timestamp ∧ stepOk ok c = true := by
  by_cases hON : s.isOnline = true
  · rw [sync_pending ok s hON] at h2
    by_cases hc : (okTs ok s.pendingChanges).contains e.timestamp = true
    · have hmem : e.timestamp ∈ okTs ok s.pendingChanges := by simpa using hc
      obtain ⟨c, hcf, hts⟩ := List.mem_map.mp hmem
      obtain ⟨hcl, hcok⟩ := List.mem_filter.mp hcf
      exact ⟨c, hcl, hts, hcok⟩
    · exfalso
      apply h2
      apply List.mem_filter.mpr
      refine ⟨h1, ?_⟩
      rw [Bool.not_eq_true] at hc
      simpa using hc
  · exfalso
    apply h2
    have hguard : syncPendingChanges ok s = (s, []) := by
      rw [Bool.not_eq_true] at hON
      simp [syncPendingChanges, hON]
    rw [hguard]
    exact h1

/-- C3 witness: the amended theorem applied to a one-entry queue whose
add entry replays successfully and is removed. -/
theorem removed_only_if_step_completed_witness :
    ∃ c ∈ sAdd7.pendingChanges,
      c.timestamp = addEntry7.timestamp ∧ stepOk okAll c = true :=
  removed_only_if_step_completed okAll sAdd7 addEntry7 (by decide) (by decide)

/-- C10: a queued update or delete entry whose id field is absent or 0
causes no remote call to be issued for that entry during replay, and the
entry is nevertheless removed from the queue exactly as if it had been
successfully replayed. -/
theorem falsy_id_entry_skipped_and_removed (ok : RemoteCall → Bool)
    (s : ServiceState) (c : PendingChange) (hmem : c ∈ s.pendingChanges)
    (hty : c.type = ChangeType.update ∨ c.type = ChangeType.delete)
    (hid : c.id = none ∨ c.id = some (JSNum.num 0))
    (hON : s.isOnline = true) :
    replayCall c = none
    ∧ c ∉ (syncPendingChanges ok s).1.pendingChanges := by
  have hrc : replayCall c = none := by
    rcases hty with h | h <;> rcases hid with h2 | h2 <;>
      simp [replayCall, h, h2, JSNum.truthy]
  refine ⟨hrc, ?_⟩
  rw [sync_pending ok s hON]
  intro hmem2
  obtain ⟨-, hcond⟩ := List.mem_filter.mp hmem2
  have hstep : stepOk ok c = true := by simp [stepOk, hrc]
  have hin : c.timestamp ∈ okTs ok s.pendingChanges :=
    List.mem_map_of_mem _ (List.mem_filter.mpr ⟨hmem, hstep⟩)
  have hcont : (okTs ok s.pendingChanges).contains c.timestamp = true := by
    simpa using hin
  rw [hcont] at hcond
  exact Bool.false_ne_true hcond

/-- C10 witness: the theorem applied to a queue holding an id-less update
entry, under an oracle where every remote call fails. -/
theorem falsy_id_entry_skipped_and_removed_witness :
    replayCall updNoId = none
    ∧ updNoId ∉ (syncPendingChanges okNone sUpdNoId).1.pendingChanges :=
  falsy_id_entry_skipped_and_removed okNone sUpdNoId updNoId (by decide)
    (Or.inl rfl) (Or.inl rfl) rfl

end BookService

namespace BookService

/-- C6: `deleteBook` returns `false` exactly when no entity with the
given id exists in the local collection; whenever the id is found it
returns `true` and splices the found entity (which carries that id) out
of the collection, for every reachability state and remote outcome. -/
theorem deleteBook_spec (id : JSNum) (r : Except Unit Unit) (now : Int)
    (s : ServiceState) :
    ((deleteBook id r now s).1 = Except.ok false ↔ ∀ b ∈ s.books, b.id ≠ id)
    ∧ (∀ i, findIndex (fun b => b.id == id) s.books = some i →
        (deleteBook id r now s).1 = Except.ok true
        ∧ (deleteBook id r now s).2.1.books = s.books.eraseIdx i
        ∧ ∃ b, s.books[i]? = some b ∧ b.id = id) := by
  cases hfi : findIndex (fun b => b.id == id) s.books with
  | none =>
    constructor
    · simp only [deleteBook, hfi]
      constructor
      · intro _ b hb
        have hfalse := (findIndex_none_iff _ s.books).mp hfi b hb
        exact beq_eq_false_iff_ne.mp hfalse
      · intro _
        trivial
    · intro i hi
      exact absurd hi (by simp)
  | some index =>
    have hres : (deleteBook id r now s).1 = Except.ok true
        ∧ (deleteBook id r now s).2.1.books = s.books.eraseIdx index := by
      cases hON : s.isOnline <;> cases r <;>
        simp [deleteBook, hfi, hON]
    obtain ⟨b, hb, hp⟩ := findIndex_some_elem _ s.books index hfi
    have hbmem : b ∈ s.books := List.getElem?_mem hb
    have hbid : b.id = id := by simpa using hp
    constructor
    · rw [hres.1]
      constructor
      · intro h
        exact absurd h (by simp)
      · intro hall
        exact absurd hbid (hall b hbmem)
    · intro i hi
      obtain rfl := Option.some.inj hi
      exact ⟨hres.1, hres.2, b, hb, hbid⟩

/-- C6 witness: deleting id 1 from the one-book offline state returns
`true` and empties the collection; deleting a missing id returns
`false`. -/
theorem deleteBook_spec_witness :
    (deleteBook (JSNum.num 1) (Except.error ()) 0 sOff1).1 = Except.ok true
    ∧ (deleteBook (JSNum.num 1) (Except.error ()) 0 sOff1).2.1.books
        = sOff1.books.eraseIdx 0 :=
  ⟨((deleteBook_spec (JSNum.num 1) (Except.error ()) 0 sOff1).2 0 (by decide)).1,
   ((deleteBook_spec (JSNum.num 1) (Except.error ()) 0 sOff1).2 0 (by decide)).2.1⟩

/-- C7: with the reachability flag false, a single `addBook`, `updateBook`
of an existing id, or `deleteBook` of an existing id appends exactly one
pending change to the queue, mutates the local collection, and issues no
remote call. -/
theorem offline_ops_enqueue (s : ServiceState) (hoff : s.isOnline = false) :
    (∀ (book : BookInput) (r : Except Unit Book) (now : Int),
      (addBook book r now s).2.1.pendingChanges
        = s.pendingChanges
            ++ [(⟨ChangeType.add, some (mkNewBook s book), none, now⟩ : PendingChange)]
      ∧ (addBook book r now s).2.1.books = s.books ++ [mkNewBook s book]
      ∧ (addBook book r now s).2.2 = [])
    ∧ (∀ (id : JSNum) (patch : BookPatch) (r : Except Unit Book) (now : Int)
        (i : Nat), findIndex (fun b => b.id == id) s.books = some i →
      (updateBook id patch r now s).2.1.pendingChanges
        = s.pendingChanges
            ++ [(⟨ChangeType.update, some (spreadPatch (getAt s.books i) patch id),
                  some id, now⟩ : PendingChange)]
      ∧ (updateBook id patch r now s).2.1.books
        = s.books.set i (spreadPatch (getAt s.books i) patch id)
      ∧ (updateBook id patch r now s).2.2 = [])
    ∧ (∀ (id : JSNum) (r : Except Unit Unit) (now : Int) (i : Nat),
        findIndex (fun b => b.id == id) s.books = some i →
      (deleteBook id r now s).2.1.pendingChanges
        = s.pendingChanges ++ [(⟨ChangeType.delete, none, some id, now⟩ : PendingChange)]
      ∧ (deleteBook id r now s).2.1.books = s.books.eraseIdx i
      ∧ (deleteBook id r now s).2.2 = []) := by
  refine ⟨?_, ?_, ?_⟩
  · intro book r now
    refine ⟨?_, ?_, ?_⟩ <;> simp [addBook, hoff]
  · intro id patch r now i hfi
    refine ⟨?_, ?_, ?_⟩ <;> simp [updateBook, hfi, hoff]
  · intro id r now i hfi
    refine ⟨?_, ?_, ?_⟩ <;> simp [deleteBook, hfi, hoff]

/-- C7 witness: the add branch of the theorem evaluated at the concrete
offline state. -/
theorem offline_ops_enqueue_witness :
    (addBook bIn (Except.error ()) 0 sOff1).2.1.pendingChanges
      = sOff1.pendingChanges
          ++ [(⟨ChangeType.add, some (mkNewBook sOff1 bIn), none, 0⟩ : PendingChange)] :=
  ((offline_ops_enqueue sOff1 rfl).1 bIn (Except.error ()) 0).1

end BookService

namespace BookService

/-- C8: the reachability flag starts `true`; when an operation's own
remote call is issued and fails, the flag becomes `false`; from `false`
it becomes `true` again only through a successful health probe, and a
successful probe does set it to `true`. -/
theorem reachability_flag_transitions (seed : List Book) (s : ServiceState)
    (op : Op) :
    (initState seed).isOnline = true
    ∧ (s.isOnline = true → opFailed op → (applyOp s op).2 ≠ [] →
        (applyOp s op).1.isOnline = false)
    ∧ (s.isOnline = false → (applyOp s op).1.isOnline = true →
        ∃ ok, op = Op.probe ok ∧ ok RemoteCall.getHealth = true)
    ∧ (∀ ok : RemoteCall → Bool, ok RemoteCall.getHealth = true →
        (applyOp s (Op.probe ok)).1.isOnline = true) := by
  refine ⟨rfl, ?_, ?_, ?_⟩
  · intro hON hfail htr
    cases op with
    | probe ok =>
      have hp : ok RemoteCall.getHealth = false := hfail
      simp [applyOp, checkApiStatus, hp]
    | list r =>
      have hr : r = Except.error () := hfail
      subst hr
      simp [applyOp, getAllBooks, hON]
    | getOne id r =>
      have hr : r = Except.error () := hfail
      subst hr
      simp [applyOp, getBookById, hON]
    | addOp book r now =>
      have hr : r = Except.error () := hfail
      subst hr
      simp [applyOp, addBook, hON]
    | updateOp id patch r now =>
      have hr : r = Except.error () := hfail
      subst hr
      cases hfi : findIndex (fun b => b.id == id) s.books with
      | none =>
        exfalso
        apply htr
        simp [applyOp, updateBook, hfi]
      | some i => simp [applyOp, updateBook, hfi, hON]
    | deleteOp id r now =>
      have hr : r = Except.error () := hfail
      subst hr
      cases hfi : findIndex (fun b => b.id == id) s.books with
      | none =>
        exfalso
        apply htr
        simp [applyOp, deleteBook, hfi]
      | some i => simp [applyOp, deleteBook, hfi, hON]
  · intro hoff hon
    cases op with
    | probe ok =>
      by_cases hp : ok RemoteCall.getHealth = true
      · exact ⟨ok, rfl, hp⟩
      · exfalso
        rw [Bool.not_eq_true] at hp
        simp [applyOp, checkApiStatus, hp] at hon
    | list r =>
      exfalso
      cases r <;> simp [applyOp, getAllBooks, hoff] at hon
    | getOne id r =>
      exfalso
      cases r <;> simp [applyOp, getBookById, hoff] at hon
    | addOp book r now =>
      exfalso
      cases r <;> simp [applyOp, addBook, hoff] at hon
    | updateOp id patch r now =>
      exfalso
      cases hfi : findIndex (fun b => b.id == id) s.books with
      | none => simp [applyOp, updateBook, hfi, hoff] at hon
      | some i => cases r <;> simp [applyOp, updateBook, hfi, hoff] at hon
    | deleteOp id r now =>
      exfalso
      cases hfi : findIndex (fun b => b.id == id) s.books with
      | none => simp [applyOp, deleteBook, hfi, hoff] at hon
      | some i => cases r <;> simp [applyOp, deleteBook, hfi, hoff] at hon
  · intro ok hp
    simp [applyOp, checkApiStatus, hp, sync_isOnline]

/-- C8 witness: a failing remote list call at an online state flips the
flag to `false`. -/
theorem reachability_flag_transitions_witness :
    (applyOp sOn1 (Op.list (Except.error ()))).1.isOnline = false :=
  (reachability_flag_transitions [] sOn1 (Op.list (Except.error ()))).2.1
    rfl rfl (by decide)

/-- C9: none of the five public operations ever surfaces a remote failure
as a thrown fault — for every store state and every remote outcome each
operation returns an ordinary value. -/
theorem ops_never_throw (s : ServiceState) :
    (∀ r, ∃ v, (getAllBooks r s).1 = Except.ok v)
    ∧ (∀ id r, ∃ v, (getBookById id r s).1 = Except.ok v)
    ∧ (∀ book r now, ∃ v, (addBook book r now s).1 = Except.ok v)
    ∧ (∀ id patch r now, ∃ v, (updateBook id patch r now s).1 = Except.ok v)
    ∧ (∀ id r now, ∃ v, (deleteBook id r now s).1 = Except.ok v) := by
  refine ⟨?_, ?_, ?_, ?_, ?_⟩
  · intro r
    cases hON : s.isOnline <;> cases r <;> simp [getAllBooks, hON]
  · intro id r
    cases hON : s.isOnline <;> cases r <;> simp [getBookById, hON]
  · intro book r now
    cases hON : s.isOnline <;> cases r <;> simp [addBook, hON]
  · intro id patch r now
    cases hfi : findIndex (fun b => b.id == id) s.books with
    | none => exact ⟨none, by simp [updateBook, hfi]⟩
    | some i =>
      cases hON : s.isOnline <;> cases r <;> simp [updateBook, hfi, hON]
  · intro id r now
    cases hfi : findIndex (fun b => b.id == id) s.books with
    | none => exact ⟨false, by simp [deleteBook, hfi]⟩
    | some i =>
      cases hON : s.isOnline <;> cases r <;> simp [deleteBook, hfi, hON]

/-- C9 witness: the list operation evaluated at a concrete state with a
failing remote call still returns a value. -/
theorem ops_never_throw_witness :
    ∃ v, (getAllBooks (Except.error ()) sOn1).1 = Except.ok v :=
  (ops_never_throw sOn1).1 (Except.error ())

end BookService
